import Mathlib

/-!
# Verification of `serial_tool.py`

A shallow embedding of the `serial_tool` serial-console program, together
with proofs about its hex codec, its readline completer, its configuration
validation, its batch/interactive dispatch, and its history handling.

Modelling conventions:

* Python byte strings are `List Nat`, each element intended `< 256`.
* Fallible Python code (`binascii.unhexlify` raising, attribute access on a
  never-assigned field) is embedded with `Except`.
* The observable behaviour of `main` (console output, device open, writes,
  reads, sleeps) is embedded as a trace of `Event`s, parameterised by the
  sets of supported port parameters that the `pyserial` layer declares
  (`serial.Serial.BAUDRATES` / `PARITIES` / `STOPBITS` / `BYTESIZES`) and by
  a script of operator inputs and device replies.
* The program only runs under a Python 2 interpreter (`raw_input`,
  `e.message`, byte-string iteration); the embedding follows those
  semantics.  Floats (`--stop-bits`, `--timeout`) are modelled as `Rat`.
-/

namespace SerialTool

/-! ## Hex codec (`unhexlify` / `hexlify`, `serial_tool.py` lines 46-52) -/

/-- The character class kept by `re.sub(r"[^0-9a-fA-F]", "", s)`:
a character survives iff it is a hex digit. -/
def isHexChar (c : Char) : Bool :=
  (decide ('0' ≤ c) && decide (c ≤ '9')) ||
  (decide ('a' ≤ c) && decide (c ≤ 'f')) ||
  (decide ('A' ≤ c) && decide (c ≤ 'F'))

/-- Numeric value of a hex digit character (meaningful on `isHexChar`),
accepting both uppercase and lowercase letters as `binascii.unhexlify` does. -/
def hexCharVal (c : Char) : Nat :=
  if c ≤ '9' then c.toNat - 48
  else if c ≤ 'F' then c.toNat - 55
  else c.toNat - 87

/-- `binascii.unhexlify` on an all-hex-digit string: consume two digits per
output byte; an odd-length string has no decoding (Python 2 raises
`TypeError("Odd-length string")`). -/
def pairBytes : List Char → Option (List Nat)
  | [] => some []
  | [_] => none
  | a :: b :: rest => (pairBytes rest).map (fun B => (16 * hexCharVal a + hexCharVal b) :: B)

/-- The hex-digit residue of the input after the `re.sub` stripping step. -/
def hexResidue (s : String) : List Char := s.data.filter isHexChar

/-- `unhexlify` (line 46): strip every non-hex-digit character, then
`binascii.unhexlify` the residue. -/
def unhexlify (s : String) : Except String (List Nat) :=
  match pairBytes (hexResidue s) with
  | some B => Except.ok B
  | none => Except.error "Odd-length string"

/-- A lowercase hex digit character, as produced by `binascii.hexlify`. -/
def hexDigitLower (n : Nat) : Char :=
  if n < 10 then Char.ofNat (48 + n) else Char.ofNat (87 + n)

/-- `binascii.hexlify(c)` for a single byte: two lowercase hex digits. -/
def pyHexByte (b : Nat) : List Char :=
  [hexDigitLower (b / 16 % 16), hexDigitLower (b % 16)]

/-- `binascii.hexlify(c).upper()`: the two digits uppercased. -/
def pyHexByteU (b : Nat) : List Char := (pyHexByte b).map Char.toUpper

/-- Python `" ".join(parts)` at the character level. -/
def joinSpace : List (List Char) → List Char
  | [] => []
  | [x] => x
  | x :: xs => x ++ ' ' :: joinSpace xs

/-- `hexlify` (line 51): `" ".join(binascii.hexlify(c).upper() for c in s)`. -/
def hexlify (B : List Nat) : String := String.mk (joinSpace (B.map pyHexByteU))

/-! ### Codec lemmas -/

theorem joinSpace_cons_cons (x y : List Char) (xs : List (List Char)) :
    joinSpace (x :: y :: xs) = x ++ ' ' :: joinSpace (y :: xs) := rfl

theorem pairBytes_cons_cons (a b : Char) (rest : List Char) :
    pairBytes (a :: b :: rest) =
      (pairBytes rest).map (fun B => (16 * hexCharVal a + hexCharVal b) :: B) := rfl

theorem isHexChar_upper_digit : ∀ n, n < 16 → isHexChar (Char.toUpper (hexDigitLower n)) = true := by
  decide

theorem hexCharVal_upper_digit : ∀ n, n < 16 → hexCharVal (Char.toUpper (hexDigitLower n)) = n := by
  decide

theorem isHexChar_space : isHexChar ' ' = false := by decide

theorem pyHexByteU_all_hex (b : Nat) : (pyHexByteU b).filter isHexChar = pyHexByteU b := by
  have h1 := isHexChar_upper_digit (b / 16 % 16) (Nat.mod_lt _ (by decide))
  have h2 := isHexChar_upper_digit (b % 16) (Nat.mod_lt _ (by decide))
  simp [pyHexByteU, pyHexByte, List.filter, h1, h2]

theorem pairBytes_pyHexByteU_append (b : Nat) (hb : b < 256) (L : List Char) :
    pairBytes (pyHexByteU b ++ L) = (pairBytes L).map (fun B => b :: B) := by
  have hd : b / 16 % 16 = b / 16 := Nat.mod_eq_of_lt (by omega)
  have h1 := hexCharVal_upper_digit (b / 16 % 16) (Nat.mod_lt _ (by decide))
  have h2 := hexCharVal_upper_digit (b % 16) (Nat.mod_lt _ (by decide))
  have hval : 16 * (b / 16 % 16) + b % 16 = b := by rw [hd]; omega
  simp only [pyHexByteU, pyHexByte, List.map, List.cons_append, List.nil_append,
    pairBytes_cons_cons, h1, h2, hval]

/-- Core round-trip fact at the character-list level. -/
theorem pairBytes_filter_joinSpace (B : List Nat) (h : ∀ b ∈ B, b < 256) :
    pairBytes ((joinSpace (B.map pyHexByteU)).filter isHexChar) = some B := by
  induction B with
  | nil => rfl
  | cons b rest ih =>
    cases rest with
    | nil =>
      have hb : b < 256 := h b (by simp)
      simp only [List.map, joinSpace]
      rw [pyHexByteU_all_hex]
      have h0 := pairBytes_pyHexByteU_append b hb []
      simp only [List.append_nil] at h0
      rw [h0]; rfl
    | cons c rest' =>
      have hb : b < 256 := h b (by simp)
      have ih' := ih (fun x hx => h x (List.mem_cons_of_mem _ hx))
      simp only [List.map] at ih' ⊢
      rw [joinSpace_cons_cons, List.filter_append, pyHexByteU_all_hex]
      simp only [List.filter, isHexChar_space] at ih' ⊢
      rw [pairBytes_pyHexByteU_append b hb, ih']
      rfl

theorem pairBytes_eq_none_iff : ∀ cs : List Char, pairBytes cs = none ↔ cs.length % 2 = 1
  | [] => by simp [pairBytes]
  | [_] => by simp [pairBytes]
  | a :: b :: cs => by
    have ih := pairBytes_eq_none_iff cs
    rw [pairBytes_cons_cons]
    cases hp : pairBytes cs with
    | none =>
      simp only [hp, Option.map_none', List.length_cons] at ih ⊢
      simp only [true_iff] at ih
      simp only [true_iff]
      omega
    | some B =>
      simp only [hp, Option.map_some', List.length_cons] at ih ⊢
      constructor
      · intro hcontra; exact absurd hcontra (by simp)
      · intro hmod
        exfalso
        have hne : ¬ cs.length % 2 = 1 := fun hc => absurd (ih.mpr hc) (by simp)
        omega

theorem pairBytes_ok_spec : ∀ (cs : List Char) (B : List Nat), pairBytes cs = some B →
    B.length = cs.length / 2 ∧
    ∀ i, i < B.length →
      B.getD i 0 = 16 * hexCharVal (cs.getD (2 * i) ' ') + hexCharVal (cs.getD (2 * i + 1) ' ')
  | [], B, h => by
    simp [pairBytes] at h
    subst h
    simp
  | [_], B, h => by simp [pairBytes] at h
  | a :: b :: cs, B, h => by
    rw [pairBytes_cons_cons] at h
    cases hp : pairBytes cs with
    | none => rw [hp] at h; simp at h
    | some B' =>
      rw [hp] at h
      simp only [Option.map_some', Option.some.injEq] at h
      subst h
      obtain ⟨hlen, hidx⟩ := pairBytes_ok_spec cs B' hp
      refine ⟨by simp [hlen]; omega, ?_⟩
      intro i hi
      cases i with
      | zero => simp
      | succ j =>
        have hj : j < B'.length := by simp at hi; omega
        have hrec := hidx j hj
        have e1 : 2 * (j + 1) = 2 * j + 1 + 1 := by ring
        have e2 : 2 * (j + 1) + 1 = 2 * j + 1 + 1 + 1 := by ring
        simp only [e1, e2, List.getD_cons_succ]
        exact hrec

/-! ### Spec-side encoder (for the refinement claim C3) -/

/-- An uppercase hex digit character, as the spec describes the output. -/
def upHexDigit (n : Nat) : Char :=
  if n < 10 then Char.ofNat (48 + n) else Char.ofNat (55 + n)

/-- Written from the spec's words, for comparison with `hexlify`:
"maps each byte to its two-digit uppercase hex representation and joins
them with a single space separator. Empty input yields empty text." -/
def spec_encode_hex (B : List Nat) : String :=
  String.mk (List.intercalate [' '] (B.map (fun b => [upHexDigit (b / 16), upHexDigit (b % 16)])))

theorem toUpper_hexDigitLower : ∀ n, n < 16 →
    Char.toUpper (hexDigitLower n) = upHexDigit n := by decide

theorem pyHexByteU_eq_specByte (b : Nat) (hb : b < 256) :
    pyHexByteU b = [upHexDigit (b / 16), upHexDigit (b % 16)] := by
  have hd : b / 16 % 16 = b / 16 := Nat.mod_eq_of_lt (by omega)
  simp only [pyHexByteU, pyHexByte, List.map, hd]
  rw [toUpper_hexDigitLower (b / 16) (by omega),
    toUpper_hexDigitLower (b % 16) (Nat.mod_lt _ (by decide))]

theorem joinSpace_eq_intercalate : ∀ xs : List (List Char),
    joinSpace xs = List.intercalate [' '] xs
  | [] => by simp [joinSpace, List.intercalate]
  | [x] => by simp [joinSpace, List.intercalate]
  | x :: y :: xs => by
    have ih := joinSpace_eq_intercalate (y :: xs)
    rw [joinSpace_cons_cons, ih]
    simp [List.intercalate, List.intersperse]

/-! ## Claim theorems for the hex codec -/

/-- **C1**: for every byte sequence `B`, decoding the text produced by
encoding `B` returns `B` unchanged: `unhexlify (hexlify B) = B`. -/
theorem unhexlify_hexlify_roundtrip (B : List Nat) (h : ∀ b ∈ B, b < 256) :
    unhexlify (hexlify B) = Except.ok B := by
  have hkey := pairBytes_filter_joinSpace B h
  unfold unhexlify
  rw [show hexResidue (hexlify B) = (joinSpace (B.map pyHexByteU)).filter isHexChar from rfl,
    hkey]

theorem unhexlify_hexlify_roundtrip_witness :
    unhexlify (hexlify [0, 171, 255]) = Except.ok [0, 171, 255] :=
  unhexlify_hexlify_roundtrip [0, 171, 255] (by decide)

/-- **C2**: `unhexlify` strips every character that is not a hex digit;
if the residue has even length it maps each consecutive digit pair
(uppercase and lowercase both accepted via `hexCharVal`) to one byte, and
it fails (the `DecodeError` of the spec, Python's
`TypeError("Odd-length string")`) exactly when the residue length is odd. -/
theorem unhexlify_spec (s : String) :
    ((hexResidue s).length % 2 = 1 → unhexlify s = Except.error "Odd-length string") ∧
    ((hexResidue s).length % 2 = 0 →
      ∃ B, unhexlify s = Except.ok B ∧ B.length = (hexResidue s).length / 2 ∧
        ∀ i, i < B.length →
          B.getD i 0 = 16 * hexCharVal ((hexResidue s).getD (2 * i) ' ') +
            hexCharVal ((hexResidue s).getD (2 * i + 1) ' ')) := by
  constructor
  · intro hodd
    have hnone := (pairBytes_eq_none_iff (hexResidue s)).mpr hodd
    unfold unhexlify
    rw [hnone]
  · intro heven
    cases hp : pairBytes (hexResidue s) with
    | none =>
      have := (pairBytes_eq_none_iff _).mp hp
      omega
    | some B =>
      refine ⟨B, ?_, pairBytes_ok_spec _ B hp⟩
      unfold unhexlify
      rw [hp]

theorem unhexlify_spec_witness :
    unhexlify "ab c" = Except.error "Odd-length string" ∧
    unhexlify "41 42 43" = Except.ok [65, 66, 67] :=
  ⟨(unhexlify_spec "ab c").1 (by decide), rfl⟩

/-- **C3**: `hexlify` returns exactly what the spec describes — each byte
as its two-digit uppercase hex representation, pairs joined with a single
space — and the empty byte sequence yields the empty string. -/
theorem hexlify_spec (B : List Nat) (h : ∀ b ∈ B, b < 256) :
    hexlify B = spec_encode_hex B ∧ hexlify [] = "" := by
  refine ⟨?_, rfl⟩
  unfold hexlify spec_encode_hex
  rw [joinSpace_eq_intercalate]
  congr 1
  congr 1
  exact List.map_congr_left (fun b hb => pyHexByteU_eq_specByte b (h b hb))

theorem hexlify_spec_witness :
    hexlify [65, 66, 67] = "41 42 43" ∧ hexlify [65, 66, 67] = spec_encode_hex [65, 66, 67] :=
  ⟨by decide, (hexlify_spec [65, 66, 67] (by decide)).1⟩

/-! ## `SimpleCompleter` (`serial_tool.py` lines 16-43)

The Python object is embedded as a structure whose `matches` field is
`none` until the first `state == 0` call assigns it (`self.matches` is only
ever created inside `complete`); reading it before then raises
`AttributeError`, embedded as `Except.error`. -/

/-- Python `s.startswith(text)`. -/
def pyStartsWith (s t : String) : Bool := t.data.isPrefixOf s.data

/-- The uncaught Python exception of interest: attribute access on a field
that no statement has assigned yet. -/
inductive PyError
  | attributeError
deriving DecidableEq

structure SimpleCompleter where
  options : List String
  /-- Models `self.matches`; `matches` itself is a reserved word in Lean. -/
  matchList : Option (List String)
deriving DecidableEq

/-- `SimpleCompleter.__init__`: vocabulary `set(["exit"])`, `matches`
never assigned. The option set's (unspecified) iteration order is carried
as a list. -/
def SimpleCompleter.initial : SimpleCompleter := ⟨["exit"], none⟩

/-- `add_option`: `self.options.add(option)` on the set. -/
def SimpleCompleter.add_option (c : SimpleCompleter) (o : String) : SimpleCompleter :=
  if o ∈ c.options then c else { c with options := c.options ++ [o] }

/-- Model of Python `sorted` on the option set: since string `≤` is a
linear order, the sorted permutation is unique, so any sorting algorithm
is extensionally Python's `sorted`. -/
def pySorted (l : List String) : List String := l.insertionSort (· ≤ ·)

/-- The match list built by `complete` when `state == 0`:
`[s for s in self.options if s and s.startswith(text)]` for non-empty
`text`, `sorted(self.options)` otherwise. -/
def newMatches (options : List String) (text : String) : List String :=
  if text ≠ "" then options.filter (fun s => !(s == "") && pyStartsWith s text)
  else pySorted options

/-- `SimpleCompleter.complete(text, state)`: rebuild the match list when
`state == 0`; return `self.matches[state]` with `IndexError` caught to
`None`; raise `AttributeError` when `self.matches` was never assigned. -/
def SimpleCompleter.complete (c : SimpleCompleter) (text : String) (state : Nat) :
    Except PyError (SimpleCompleter × Option String) :=
  let c' := if state = 0 then { c with matchList := some (newMatches c.options text) } else c
  match c'.matchList with
  | none => Except.error PyError.attributeError
  | some ms => Except.ok (c', ms[state]?)

theorem complete_zero (c : SimpleCompleter) (text : String) :
    c.complete text 0 =
      Except.ok ({ c with matchList := some (newMatches c.options text) },
        (newMatches c.options text)[0]?) := rfl

theorem complete_of_matches_some (c : SimpleCompleter) (text : String) (st : Nat)
    (ms : List String) (hst : st ≠ 0) (hm : c.matchList = some ms) :
    c.complete text st = Except.ok (c, ms[st]?) := by
  simp only [SimpleCompleter.complete, if_neg hst, hm]

theorem pyStartsWith_empty_left (t : String) (ht : t ≠ "") : pyStartsWith "" t = false := by
  cases t with
  | mk d =>
    cases d with
    | nil => exact absurd rfl ht
    | cons a as => rfl

/-! ## Claim theorems for the completer -/

/-- **C4**: on `attempt_index == 0`, `complete` rebuilds the match list —
every vocabulary word starting with the prefix (case-sensitively) when the
prefix is non-empty, the full vocabulary sorted ascending when it is empty
— and for every attempt index it returns the index-th entry of the current
match list, `none` (no more matches) whenever the index is at or past the
end of the list. -/
theorem complete_spec (c : SimpleCompleter) (text : String) (st : Nat) :
    (c.complete text 0 =
      Except.ok ({ c with matchList := some (newMatches c.options text) },
        (newMatches c.options text)[0]?)) ∧
    (text ≠ "" → ∀ s, s ∈ newMatches c.options text ↔
      s ∈ c.options ∧ pyStartsWith s text = true) ∧
    (text = "" → (newMatches c.options text).Sorted (· ≤ ·) ∧
      List.Perm (newMatches c.options text) c.options) ∧
    (st ≠ 0 → ∀ ms, c.matchList = some ms →
      c.complete text st = Except.ok (c, ms[st]?) ∧
      (ms.length ≤ st → ms[st]? = none) ∧
      (∀ h : st < ms.length, ms[st]? = some (ms.get ⟨st, h⟩))) := by
  refine ⟨complete_zero c text, ?_, ?_, ?_⟩
  · intro hne s
    rw [show newMatches c.options text =
        c.options.filter (fun s => !(s == "") && pyStartsWith s text) from if_pos hne]
    rw [List.mem_filter]
    constructor
    · rintro ⟨hmem, hpred⟩
      simp only [Bool.and_eq_true] at hpred
      exact ⟨hmem, hpred.2⟩
    · rintro ⟨hmem, hsw⟩
      refine ⟨hmem, ?_⟩
      simp only [Bool.and_eq_true]
      refine ⟨?_, hsw⟩
      by_cases hs : s = ""
      · subst hs
        rw [pyStartsWith_empty_left text hne] at hsw
        exact absurd hsw (by simp)
      · simp [hs]
  · intro hempty
    rw [show newMatches c.options text = pySorted c.options from by
      simp [newMatches, hempty]]
    exact ⟨List.sorted_insertionSort _ _, List.perm_insertionSort _ _⟩
  · intro hst ms hm
    refine ⟨complete_of_matches_some c text st ms hst hm, ?_, ?_⟩
    · intro hlen
      exact List.getElem?_eq_none hlen
    · intro hlt
      simp [List.getElem?_eq_getElem hlt]

theorem complete_spec_witness :
    SimpleCompleter.complete ⟨["exit", "ping"], none⟩ "p" 0 =
      Except.ok (⟨["exit", "ping"], some ["ping"]⟩, some "ping") ∧
    SimpleCompleter.complete ⟨["exit", "ping"], some ["ping"]⟩ "p" 1 =
      Except.ok (⟨["exit", "ping"], some ["ping"]⟩, none) ∧
    SimpleCompleter.complete ⟨["exit", "ping"], none⟩ "" 0 =
      Except.ok (⟨["exit", "ping"], some ["exit", "ping"]⟩, some "exit") := by
  refine ⟨?_, ?_, ?_⟩
  · rw [(complete_spec ⟨["exit", "ping"], none⟩ "p" 0).1]; rfl
  · rw [((complete_spec ⟨["exit", "ping"], some ["ping"]⟩ "p" 1).2.2.2
      (by decide) ["ping"] rfl).1]
    rfl
  · rw [(complete_spec ⟨["exit", "ping"], none⟩ "" 0).1]
    simp only [newMatches, pySorted]
    norm_num [List.insertionSort, List.orderedInsert]
    decide

/-- **C10**: calling `complete` on a freshly constructed `SimpleCompleter`
with a non-zero attempt index raises `AttributeError` (the match list was
never built) instead of returning the no-more-matches signal; after any
call with attempt index `0` has initialized the match list, every
subsequent call succeeds. -/
theorem complete_uninitialized (text text2 : String) (st : Nat) (hst : st ≠ 0) :
    SimpleCompleter.initial.complete text st = Except.error PyError.attributeError ∧
    (∀ c' r, SimpleCompleter.initial.complete text2 0 = Except.ok (c', r) →
      ∀ st2, ∃ v, c'.complete text st2 = Except.ok v) := by
  constructor
  · simp only [SimpleCompleter.complete, if_neg hst, SimpleCompleter.initial]
  · intro c' r h st2
    rw [complete_zero] at h
    simp only [Except.ok.injEq, Prod.mk.injEq] at h
    obtain ⟨h1, h2⟩ := h
    subst h1
    by_cases h0 : st2 = 0
    · subst h0
      exact ⟨_, complete_zero _ _⟩
    · exact ⟨_, complete_of_matches_some _ text st2 _ h0 rfl⟩

theorem complete_uninitialized_witness :
    SimpleCompleter.initial.complete "p" 1 = Except.error PyError.attributeError :=
  (complete_uninitialized "p" "" 1 (by decide)).1

/-! ## Observable behaviour of `main` (`serial_tool.py` lines 55-197)

`main`'s effects are embedded as an event trace.  The device is modelled
by the list of bytes it has buffered when the fixed sleep elapses (the
`while ser.inWaiting() > 0: out += ser.read(1)` drain then consumes exactly
those bytes); the operator is modelled by a script of lines (or interrupt /
end-of-input signals) paired with the device's buffered reply for that
turn. -/

inductive Event
  | msgOut (s : String)
  | msgErr (s : String)
  | prompt (s : String)
  | openDevice (port : String) (baud : Int) (parity : String) (stop : Rat) (dataBits : Int)
  | writeBytes (bs : List Nat)
  | sleep (t : Rat)
  | readByte
  | closeDevice
deriving DecidableEq

/-- `termcolor.colored(s, color)`: ANSI color prefix plus reset suffix. -/
def colored (s : String) (code : Nat) : String :=
  "\x1b[" ++ toString code ++ "m" ++ s ++ "\x1b[0m"

/-- `termcolor.colored(s, color, attrs=["bold"])`. -/
def coloredBold (s : String) (code : Nat) : String :=
  "\x1b[1m" ++ "\x1b[" ++ toString code ++ "m" ++ s ++ "\x1b[0m"

/-- The supported-parameter sets the `pyserial` layer declares
(`serial.Serial.BAUDRATES` / `PARITIES` / `STOPBITS` / `BYTESIZES`),
carried abstractly: `main` only tests membership. -/
structure SerialAPI where
  BAUDRATES : List Int
  PARITIES : List String
  STOPBITS : List Rat
  BYTESIZES : List Int

/-- The parsed command line (`argparse` result, lines 62-109). -/
structure Args where
  baud : Int
  parity : String
  stop_bits : Rat
  data_bits : Int
  read_timeout : Rat
  batch_mode : Option String
  port : String

/-- Python truthiness of `args.batch_mode` (`if args.batch_mode:`):
`None` and the empty string are both falsy. -/
def pyTruthyOptStr : Option String → Bool
  | none => false
  | some s => !(s == "")

/-- Python `"%d" % f` for a float: truncation toward zero. -/
def ratTruncInt (q : Rat) : Int := if q < 0 then -((-q).floor) else q.floor

/-- The drain loop: one `ser.read(1)` per buffered byte. -/
def drainEvents (reply : List Nat) : List Event := reply.map (fun _ => Event.readByte)

/-- `do_batch_mode` (lines 138-154): decode, on `TypeError` print the
colored error to stderr and end the pass; otherwise write, sleep, drain,
and print the hex reply (nothing when the reply is empty). -/
def do_batch_mode (read_timeout : Rat) (batch : String) (reply : List Nat) : List Event :=
  match unhexlify batch with
  | Except.error e => [Event.msgErr (colored ("ERROR: " ++ e) 31)]
  | Except.ok input_hex =>
      Event.writeBytes input_hex :: Event.sleep read_timeout ::
        (drainEvents reply ++ (if reply ≠ [] then [Event.msgOut (hexlify reply)] else []))

/-- One operator turn: an entered line, or Control-C / Control-D
(`KeyboardInterrupt` / `EOFError`, handled identically). -/
inductive LineIn
  | line (s : String)
  | interrupt

/-- The interactive prompt `termcolor.colored(">> ", "red", attrs=["bold"])`. -/
def promptStr : String := coloredBold ">> " 31

/-- The `while 1` loop of `do_interactive_mode` (lines 165-197): prompt;
interrupt/EOF prints "exiting" and closes; the literal line `exit` closes;
a decode failure prints the colored error and loops; otherwise write,
sleep, drain, print the prefixed hex reply when non-empty, and loop.  An
exhausted script leaves the process blocked at the prompt. -/
def interactiveLoop (read_timeout : Rat) : List (LineIn × List Nat) → List Event
  | [] => [Event.prompt promptStr]
  | (LineIn.interrupt, _) :: _ =>
      [Event.prompt promptStr, Event.msgOut "exiting", Event.closeDevice]
  | (LineIn.line s, reply) :: rest =>
      Event.prompt promptStr ::
        (if s = "exit" then [Event.closeDevice]
         else
           match unhexlify s with
           | Except.error e =>
               Event.msgOut (colored ("ERROR: " ++ e) 31) :: interactiveLoop read_timeout rest
           | Except.ok bs =>
               Event.writeBytes bs :: Event.sleep read_timeout ::
                 (drainEvents reply ++
                   (if reply ≠ []
                    then [Event.msgOut (coloredBold "<< " 32 ++ hexlify reply)]
                    else []) ++
                   interactiveLoop read_timeout rest))

/-- The two banner prints of `do_interactive_mode` (lines 158-163).
Numeric fields rendered with `toString` (Python float rendering of
`stopbits` approximated). -/
def bannerEvents (args : Args) : List Event :=
  [Event.msgOut ("serial_tool on " ++ args.port ++ ": " ++ toString args.baud ++ " " ++
      toString args.data_bits ++ args.parity ++ toString args.stop_bits),
   Event.msgOut ("Enter your commands below in HEX form. \r\nAll characters but 0-9,a-f including spaces are ignored.\r\nPress Control-D or Control-C to leave the application.\r\nPress [Enter] to print received data")]

def do_interactive_mode (args : Args) (script : List (LineIn × List Nat)) : List Event :=
  bannerEvents args ++ interactiveLoop args.read_timeout script

/-- `main` (lines 55-135): validate baud, parity and stop-bits against the
serial layer's declared sets (each failure prints one colored line and
returns 1); then open the device and dispatch on the truthiness of
`args.batch_mode`.  Returns the event trace and `main`'s return value
(`None` on the non-error paths). -/
def main (api : SerialAPI) (args : Args) (script : List (LineIn × List Nat))
    (batchReply : List Nat) : List Event × Option Int :=
  if args.baud ∉ api.BAUDRATES then
    ([Event.msgOut (colored "ERROR:" 31 ++ " " ++ "incorrect baudrate " ++ toString args.baud)],
      some 1)
  else if args.parity ∉ api.PARITIES then
    ([Event.msgOut (colored "ERROR:" 31 ++ " " ++ "incorrect parity " ++ args.parity)], some 1)
  else if args.stop_bits ∉ api.STOPBITS then
    ([Event.msgOut (colored "ERROR:" 31 ++ " " ++ "incorrect stop bits setting " ++
        toString (ratTruncInt args.stop_bits))], some 1)
  else
    (Event.openDevice args.port args.baud args.parity args.stop_bits args.data_bits ::
      (match args.batch_mode with
       | some b =>
           if !(b == "") then do_batch_mode args.read_timeout b batchReply
           else do_interactive_mode args script
       | none => do_interactive_mode args script),
      none)

/-! ## The `__main__` block (lines 200-214) -/

inductive TopEvent
  | loadHistory
  | loadHistoryMissing
  | setHistLength (n : Nat)
  | bindKeys
  | runMain
  | writeHistory
  | exitProc (code : Int)
  | uncaught (e : String)
deriving DecidableEq

/-- The `__main__` block: `read_history_file` with `IOError` caught when
the file is missing, `set_history_length(2000)`, `parse_and_bind`, then
`try: rc = main() finally: write_history_file`, then `sys.exit(rc)`
(`sys.exit(None)` is exit status 0).  `outcome` abstracts how `main`
ended: normally with its return value, or with an uncaught exception
(which still runs the `finally` block and then propagates). -/
def topLevel (histFileExists : Bool) (outcome : Except String (Option Int)) : List TopEvent :=
  (if histFileExists then [TopEvent.loadHistory] else [TopEvent.loadHistoryMissing]) ++
    TopEvent.setHistLength 2000 :: TopEvent.bindKeys :: TopEvent.runMain ::
      (match outcome with
       | Except.ok rc => [TopEvent.writeHistory, TopEvent.exitProc (rc.getD 0)]
       | Except.error e => [TopEvent.writeHistory, TopEvent.uncaught e])

/-- Modelled from the spec: the `readline` library (external to `src/`)
persists, once `set_history_length(2000)` has been called, only the most
recent 2000 entered lines when `write_history_file` runs ("capped to the
last 2000 entries"). -/
def writtenHistory (entries : List String) : List String :=
  entries.drop (entries.length - 2000)

/-- Fixture for concrete runs: a small instance of the serial layer's
declared parameter sets (`BYTESIZES` as in `pyserial`). -/
def api0 : SerialAPI :=
  ⟨[300, 9600, 115200], ["N", "E", "O", "M", "S"], [1, 3/2, 2], [5, 6, 7, 8]⟩

/-! ## Claim theorems for `main`, the modes, and the `__main__` block -/

/-- **C5**: an invocation whose baud, parity, or stop-bits value is
outside the serial layer's declared supported set prints one colored
error line, makes `main` return 1 — so the process exits with status 1 —
and produces no device event at all: no open, no write, no read. -/
theorem config_invalid_rejected (api : SerialAPI) (args : Args)
    (script : List (LineIn × List Nat)) (batchReply : List Nat)
    (h : args.baud ∉ api.BAUDRATES ∨ args.parity ∉ api.PARITIES ∨
      args.stop_bits ∉ api.STOPBITS) :
    (∃ m, (main api args script batchReply).1 =
      [Event.msgOut (colored "ERROR:" 31 ++ " " ++ m)]) ∧
    (main api args script batchReply).2 = some 1 ∧
    (∀ hfe, (topLevel hfe (Except.ok (main api args script batchReply).2)).getLast? =
      some (TopEvent.exitProc 1)) ∧
    (∀ e ∈ (main api args script batchReply).1,
      (∀ p b pr sb db, e ≠ Event.openDevice p b pr sb db) ∧
      (∀ bs, e ≠ Event.writeBytes bs) ∧ e ≠ Event.readByte) := by
  have key : ∃ m, main api args script batchReply =
      ([Event.msgOut (colored "ERROR:" 31 ++ " " ++ m)], some 1) := by
    by_cases h1 : args.baud ∉ api.BAUDRATES
    · exact ⟨"incorrect baudrate " ++ toString args.baud,
        by unfold main; rw [if_pos h1]; simp only [← String.append_assoc]⟩
    · by_cases h2 : args.parity ∉ api.PARITIES
      · exact ⟨"incorrect parity " ++ args.parity,
          by unfold main; rw [if_neg h1, if_pos h2]; simp only [← String.append_assoc]⟩
      · have h3 : args.stop_bits ∉ api.STOPBITS := by tauto
        exact ⟨"incorrect stop bits setting " ++ toString (ratTruncInt args.stop_bits),
          by unfold main; rw [if_neg h1, if_neg h2, if_pos h3]; simp only [← String.append_assoc]⟩
  obtain ⟨m, hm⟩ := key
  rw [hm]
  refine ⟨⟨m, rfl⟩, rfl, fun hfe => by cases hfe <;> rfl, ?_⟩
  intro e he
  simp only [List.mem_singleton] at he
  subst he
  exact ⟨fun p b pr sb db => by simp, fun bs => by simp, by simp⟩

theorem config_invalid_rejected_witness :
    (∃ m, (main api0 ⟨1234, "N", 1, 8, 1, none, "/dev/ttyS0"⟩ [] []).1 =
      [Event.msgOut (colored "ERROR:" 31 ++ " " ++ m)]) ∧
    (main api0 ⟨1234, "N", 1, 8, 1, none, "/dev/ttyS0"⟩ [] []).2 = some 1 := by
  have h := config_invalid_rejected api0 ⟨1234, "N", 1, 8, 1, none, "/dev/ttyS0"⟩ [] []
    (Or.inl (by decide))
  exact ⟨h.1, h.2.1⟩

/-- **C6 counterexample**: with data-bits 9 — outside the serial layer's
declared `BYTESIZES` — and otherwise valid settings, startup validation
does not reject the invocation: the very first event of the run is the
device-open attempt (carrying data-bits 9) and `main` does not take the
validation-error exit, contradicting "a data-bits value outside that set
is rejected before any device is opened". -/
theorem data_bits_not_validated_cex :
    (9 : Int) ∉ api0.BYTESIZES ∧
    (main api0 ⟨9600, "N", 1, 9, 1, none, "/dev/ttyS0"⟩ [] []).1.head? =
      some (Event.openDevice "/dev/ttyS0" 9600 "N" 1 9) ∧
    (main api0 ⟨9600, "N", 1, 9, 1, none, "/dev/ttyS0"⟩ [] []).2 = none := by
  refine ⟨by decide, ?_, ?_⟩ <;> rfl

/-- **C6 amended**: startup validation checks only baud, parity, and
stop-bits; the data-bits setting is not validated at startup — for every
data-bits value whatsoever (supported by the serial layer or not), when
the three checked settings are valid the program proceeds directly to the
device-open attempt, passing data-bits through for the serial layer itself
to accept or reject at open time. -/
theorem data_bits_passed_through (api : SerialAPI) (args : Args)
    (script : List (LineIn × List Nat)) (batchReply : List Nat)
    (h1 : args.baud ∈ api.BAUDRATES) (h2 : args.parity ∈ api.PARITIES)
    (h3 : args.stop_bits ∈ api.STOPBITS) :
    (main api args script batchReply).1.head? =
      some (Event.openDevice args.port args.baud args.parity args.stop_bits args.data_bits) ∧
    (main api args script batchReply).2 = none := by
  unfold main
  rw [if_neg (not_not_intro h1), if_neg (not_not_intro h2), if_neg (not_not_intro h3)]
  exact ⟨rfl, rfl⟩

theorem data_bits_passed_through_witness :
    (main api0 ⟨9600, "N", 1, 9, 1, none, "/dev/ttyS0"⟩ [] []).1.head? =
      some (Event.openDevice "/dev/ttyS0" 9600 "N" 1 9) :=
  (data_bits_passed_through api0 ⟨9600, "N", 1, 9, 1, none, "/dev/ttyS0"⟩ [] []
    (by decide) (by decide) (by decide)).1

/-- **C7 counterexample**: supplying `--batch ""` (the empty hex string)
does not run batch mode: `if args.batch_mode:` is false for the empty
string, so the program enters the interactive prompt loop — the
interactive prompt appears in the trace, contradicting "never enters the
interactive prompt loop" for "any supplied hex string, including the
empty string". -/
theorem batch_empty_goes_interactive_cex :
    Event.prompt promptStr ∈
      (main api0 ⟨9600, "N", 1, 8, 1, some "", "/dev/ttyS0"⟩ [] []).1 := by
  decide

/-- **C7 amended**: presence of a *non-empty* `--batch` hex string runs
batch mode — a single decode/write/wait/drain/print pass
(`do_batch_mode`) right after the device open, and the interactive prompt
loop is never entered; `--batch ""` instead falls through to interactive
mode because the code tests the truthiness of the string, not its
presence. -/
theorem batch_nonempty_single_pass (api : SerialAPI) (args : Args)
    (script : List (LineIn × List Nat)) (batchReply : List Nat) (b : String)
    (hb : args.batch_mode = some b) (hne : b ≠ "")
    (h1 : args.baud ∈ api.BAUDRATES) (h2 : args.parity ∈ api.PARITIES)
    (h3 : args.stop_bits ∈ api.STOPBITS) :
    (main api args script batchReply).1 =
      Event.openDevice args.port args.baud args.parity args.stop_bits args.data_bits ::
        do_batch_mode args.read_timeout b batchReply ∧
    (∀ s, Event.prompt s ∉ (main api args script batchReply).1) := by
  have hmain : (main api args script batchReply).1 =
      Event.openDevice args.port args.baud args.parity args.stop_bits args.data_bits ::
        do_batch_mode args.read_timeout b batchReply := by
    unfold main
    rw [if_neg (not_not_intro h1), if_neg (not_not_intro h2), if_neg (not_not_intro h3), hb]
    simp [hne]
  refine ⟨hmain, ?_⟩
  intro s hmem
  rw [hmain] at hmem
  rcases List.mem_cons.mp hmem with h | h
  · simp at h
  · unfold do_batch_mode at h
    cases hx : unhexlify b <;> rw [hx] at h
    · simp at h
    · by_cases hr : batchReply = [] <;> simp [drainEvents, hr] at h

theorem batch_nonempty_single_pass_witness :
    (main api0 ⟨9600, "N", 1, 8, 1, some "01", "/dev/ttyS0"⟩ [] [1, 2]).1 =
      Event.openDevice "/dev/ttyS0" 9600 "N" 1 8 :: do_batch_mode 1 "01" [1, 2] ∧
    Event.prompt promptStr ∉
      (main api0 ⟨9600, "N", 1, 8, 1, some "01", "/dev/ttyS0"⟩ [] [1, 2]).1 := by
  have h := batch_nonempty_single_pass api0 ⟨9600, "N", 1, 8, 1, some "01", "/dev/ttyS0"⟩
    [] [1, 2] "01" rfl (by decide) (by decide) (by decide) (by decide)
  exact ⟨h.1, h.2 promptStr⟩

/-- **C8**: a decode failure does not crash the process: in the
interactive loop the error is reported in color and the loop returns to
the prompting state (the trace continues with the processing of the rest
of the script, whose next event is a fresh prompt); in batch mode the
single pass ends right after reporting the error to stderr — no write,
sleep, or read happens. -/
theorem decode_error_reported (t : Rat) (s e : String) (reply : List Nat)
    (rest : List (LineIn × List Nat)) (b : String) (reply2 : List Nat)
    (hexit : s ≠ "exit") (hdec : unhexlify s = Except.error e)
    (hb : unhexlify b = Except.error e) :
    interactiveLoop t ((LineIn.line s, reply) :: rest) =
      Event.prompt promptStr :: Event.msgOut (colored ("ERROR: " ++ e) 31) ::
        interactiveLoop t rest ∧
    (∃ evs, interactiveLoop t rest = Event.prompt promptStr :: evs) ∧
    do_batch_mode t b reply2 = [Event.msgErr (colored ("ERROR: " ++ e) 31)] := by
  refine ⟨?_, ?_, ?_⟩
  · show Event.prompt promptStr ::
        (if s = "exit" then [Event.closeDevice] else _) = _
    rw [if_neg hexit, hdec]
  · cases rest with
    | nil => exact ⟨_, rfl⟩
    | cons p rest' =>
      rcases p with ⟨li, rep⟩
      cases li with
      | line s' => exact ⟨_, rfl⟩
      | interrupt => exact ⟨_, rfl⟩
  · unfold do_batch_mode
    rw [hb]

theorem decode_error_reported_witness :
    interactiveLoop 1 [(LineIn.line "abc", []), (LineIn.line "41", [65])] =
      Event.prompt promptStr ::
        Event.msgOut (colored ("ERROR: " ++ "Odd-length string") 31) ::
          interactiveLoop 1 [(LineIn.line "41", [65])] ∧
    do_batch_mode 1 "abc" [] =
      [Event.msgErr (colored ("ERROR: " ++ "Odd-length string") 31)] := by
  have h := decode_error_reported 1 "abc" "Odd-length string" [] [(LineIn.line "41", [65])]
    "abc" [] (by decide) rfl rfl
  exact ⟨h.1, h.2.2⟩

/-- **C9**: on every exit path of the `__main__` block — normal return of
`main` (including interrupt and end-of-input, which `do_interactive_mode`
turns into a normal return) as well as an uncaught error — the `finally`
block rewrites the history file; the length cap 2000 is set at startup;
the history load is the first startup action and a missing history file
is tolerated (startup continues exactly as when the file exists); the
modelled readline layer persists at most the last 2000 entries. -/
theorem history_always_saved (hfe : Bool) (outcome : Except String (Option Int))
    (entries : List String) :
    TopEvent.writeHistory ∈ topLevel hfe outcome ∧
    TopEvent.setHistLength 2000 ∈ topLevel hfe outcome ∧
    (topLevel false outcome).head? = some TopEvent.loadHistoryMissing ∧
    (topLevel true outcome).head? = some TopEvent.loadHistory ∧
    (topLevel false outcome).tail = (topLevel true outcome).tail ∧
    (writtenHistory entries).length ≤ 2000 ∧
    (writtenHistory entries) <:+ entries := by
  refine ⟨?_, ?_, ?_, ?_, ?_, ?_, ?_⟩
  · cases hfe <;> cases outcome <;> simp [topLevel]
  · cases hfe <;> cases outcome <;> simp [topLevel]
  · cases outcome <;> rfl
  · cases outcome <;> rfl
  · cases outcome <;> rfl
  · simp only [writtenHistory, List.length_drop]
    omega
  · exact List.drop_suffix _ _

end SerialTool
